import Mathlib

/-!
Verification of the DeFtunes music data platform against its design
specification.  The repository ships declarative infrastructure
(`terraform/main.tf`) and a design document; the pipeline engine itself
(Extractor, Transformer, Quality Gate, Orchestrator) is described by the
specification only, so those components are modelled here from the
specification text, while the Terraform resources are embedded directly
from `src/terraform/main.tf`.
-/

namespace Deftunes

/-! ## Quality Gate (spec section 4.3) -/

/-- Modelled from the spec: the Quality Gate engine is not present under
`src/` (the repository only lists declarative rule expressions); per spec
4.3, each rule observes a ratio over the curated partition and carries a
threshold, and a Quality Verdict is produced per rule. -/
structure RuleResult where
  rule_id : String
  observed : ℚ
  threshold : ℚ
deriving DecidableEq, Repr

/-- Modelled from the spec: a rule meets its threshold when the observed
ratio is at least the threshold (spec 8: exactly-at-threshold passes). -/
def rulePasses (r : RuleResult) : Bool :=
  decide (r.threshold ≤ r.observed)

/-- Aggregate outcome of a Quality Gate evaluation. -/
inductive Outcome where
  | PASS
  | FAIL
deriving DecidableEq, Repr

/-- Modelled from the spec: aggregate policy, outcome is PASS only if every
rule meets its threshold; otherwise FAIL (spec 4.3). -/
def aggregateOutcome (rs : List RuleResult) : Outcome :=
  if rs.all rulePasses then Outcome.PASS else Outcome.FAIL

/-! ## Orchestrator state machine (spec section 4.5) -/

/-- Modelled from the spec: run states of the Orchestrator per logical
pipeline run (spec 4.5). -/
inductive Phase where
  | PENDING
  | EXTRACTING
  | TRANSFORMING
  | QUALITY_CHECK
  | MODELING
  | SUCCEEDED
  | FAILED
  | BLOCKED
deriving DecidableEq, Repr

/-- Orchestrator state for one run: the phase together with whether the
curated data produced by the Transformer has been recorded. -/
structure OrchState where
  phase : Phase
  curatedRecorded : Bool
deriving DecidableEq, Repr

/-- Events driving a run forward: stage completions, the Quality Gate
verdict, manual or scheduled re-evaluation from BLOCKED, and retry
exhaustion. -/
inductive Event where
  | startExtract
  | extractDone
  | transformDone
  | verdict (pass : Bool)
  | reEvaluate (pass : Bool)
  | modelDone
  | exhaustedRetries
deriving DecidableEq, Repr

/-- Observable side effects of a transition, tagged with the run's
logical_date. -/
inductive Action where
  | invokeModeler (d : String)
  | recordCurated (d : String)
  | persistVerdict (d : String) (pass : Bool)
deriving DecidableEq, Repr

/-- Modelled from the spec: one transition of the Orchestrator state
machine for the run of logical_date `d` (spec 4.5): a FAIL verdict moves
QUALITY_CHECK to BLOCKED without invoking the Modeler, a PASS verdict (or
a PASS re-evaluation from BLOCKED) moves to MODELING and invokes
the Modeler, curated data is recorded when the Transformer completes, and
retry exhaustion sends any non-terminal state to FAILED. -/
def step (d : String) (s : OrchState) (e : Event) : OrchState × List Action :=
  match s.phase, e with
  | Phase.SUCCEEDED, _ => (s, [])
  | Phase.FAILED, _ => (s, [])
  | Phase.PENDING, Event.startExtract => (⟨Phase.EXTRACTING, s.curatedRecorded⟩, [])
  | Phase.EXTRACTING, Event.extractDone => (⟨Phase.TRANSFORMING, s.curatedRecorded⟩, [])
  | Phase.TRANSFORMING, Event.transformDone =>
      (⟨Phase.QUALITY_CHECK, true⟩, [Action.recordCurated d])
  | Phase.QUALITY_CHECK, Event.verdict true =>
      (⟨Phase.MODELING, s.curatedRecorded⟩,
        [Action.persistVerdict d true, Action.invokeModeler d])
  | Phase.QUALITY_CHECK, Event.verdict false =>
      (⟨Phase.BLOCKED, s.curatedRecorded⟩, [Action.persistVerdict d false])
  | Phase.BLOCKED, Event.reEvaluate true =>
      (⟨Phase.MODELING, s.curatedRecorded⟩,
        [Action.persistVerdict d true, Action.invokeModeler d])
  | Phase.BLOCKED, Event.reEvaluate false =>
      (⟨Phase.BLOCKED, s.curatedRecorded⟩, [Action.persistVerdict d false])
  | Phase.MODELING, Event.modelDone => (⟨Phase.SUCCEEDED, s.curatedRecorded⟩, [])
  | _, Event.exhaustedRetries => (⟨Phase.FAILED, s.curatedRecorded⟩, [])
  | _, _ => (s, [])

/-- An event carries a PASS verdict when it is a Quality Gate PASS or a
PASS re-evaluation. -/
def isPass : Event → Bool
  | Event.verdict true => true
  | Event.reEvaluate true => true
  | _ => false

/-- The trace of a run: each processed event paired with the actions its
transition emitted. -/
def traceFrom (d : String) (s : OrchState) : List Event → List (Event × List Action)
  | [] => []
  | e :: es => (e, (step d s e).2) :: traceFrom d (step d s e).1 es

/-! ## Transactional table and partition writes (spec sections 3, 4.2) -/

/-- Modelled from the spec: the transactional table, viewed as the map from
logical_date partition keys to the rows of that partition (absent
partitions are `none`). -/
abbrev Table (α : Type) : Type := String → Option (List α)

/-- Modelled from the spec: a copy-on-write partition write — a write for
logical_date `d` replaces partition `d` and touches nothing else
(spec 4.2, Write). -/
def writePartition (d : String) (rows : List α) (t : Table α) : Table α :=
  fun x => if x = d then some rows else t x

/-! ## Transformer: type coercion and the rejected-records sink (spec 4.2) -/

/-- Modelled from the spec: split a raw batch by type coercion — coerced
records in order, and each malformed record paired with its error reason
(spec 4.2, Failure). -/
def splitRecords (coerce : α → Except String β) : List α → List β × List (α × String)
  | [] => ([], [])
  | r :: rs =>
    let s := splitRecords coerce rs
    match coerce r with
    | Except.ok b => (b :: s.1, s.2)
    | Except.error msg => (s.1, (r, msg) :: s.2)

/-- Rejection rate of a batch: rejected records over total records. -/
def rejectionRate (total rejected : ℕ) : ℚ :=
  (rejected : ℚ) / (total : ℚ)

/-- Result of a Transformer partition write: the resulting table, the
rejected-records sink, and whether the write was aborted. -/
structure TransformResult (α β : Type) where
  table : Table β
  sink : List (α × String)
  aborted : Bool

/-- Modelled from the spec: the Transformer's partition write for
logical_date `d` (spec 4.2). Malformed records go to the rejected-records
sink with their error reason; if the rejection rate exceeds the configured
ceiling the whole partition write is aborted and the table is left
unchanged, otherwise the coerced rows are written to partition `d`. -/
def transformWrite (coerce : α → Except String β) (ceiling : ℚ) (d : String)
    (batch : List α) (t : Table β) : TransformResult α β :=
  let s := splitRecords coerce batch
  if ceiling < rejectionRate batch.length s.2.length then
    ⟨t, s.2, true⟩
  else
    ⟨writePartition d s.1 t, s.2, false⟩

/-! ## Transformer: deduplication (spec 4.2) -/

/-- A curated-layer row: primary key, ingestion timestamp, payload. -/
structure Row (K V : Type) where
  key : K
  ingestTs : ℕ
  payload : V
deriving DecidableEq, Repr

/-- Of two rows with the same primary key, keep the latest by ingestion
timestamp (on a tie, the later-ingested occurrence wins). -/
def laterOf (a b : Row K V) : Row K V :=
  if a.ingestTs ≤ b.ingestTs then b else a

/-- Insert a row into an accumulator of key-distinct rows: collapse with
the existing row of the same key, or append. -/
def insertRow [DecidableEq K] (r : Row K V) : List (Row K V) → List (Row K V)
  | [] => [r]
  | x :: xs => if x.key = r.key then laterOf x r :: xs else x :: insertRow r xs

/-- Modelled from the spec: deduplication within a logical_date partition —
collapse duplicate primary keys keeping the latest by ingestion timestamp
(spec 4.2, Deduplication). -/
def deduplicate [DecidableEq K] (rows : List (Row K V)) : List (Row K V) :=
  rows.foldl (fun acc r => insertRow r acc) []

/-- Primary-key uniqueness of a partition: distinct primary keys over total
rows (spec 3, Curated Row invariants). -/
def uniquenessOf [DecidableEq K] (rows : List (Row K V)) : ℚ :=
  (((rows.map Row.key).dedup).length : ℚ) / ((rows.length : ℚ))

/-! ## Transformer: enrichment join (spec 4.2) -/

/-- A User row of the curated layer, keyed by user identifier. -/
structure User (K : Type) where
  user_id : K
  user_name : String
deriving DecidableEq, Repr

/-- A Session row of the curated layer, carrying its user identifier. -/
structure Session (K : Type) where
  session_id : String
  user_id : K
  price : ℚ
deriving DecidableEq, Repr

/-- A Session after enrichment: the session, the foreign key to the matched
User (`none` when unmatched), and the unmatched flag. -/
structure EnrichedSession (K : Type) where
  session : Session K
  userRef : Option K
  unmatchedFlag : Bool
deriving DecidableEq, Repr

/-- Modelled from the spec: the enrichment join — each Session row is
joined to the User rows on user identifier; an unmatched session is
retained with a null foreign key and flagged, never dropped
(spec 4.2, Enrichment). -/
def enrich [DecidableEq K] (users : List (User K)) (sessions : List (Session K)) :
    List (EnrichedSession K) :=
  sessions.map fun s =>
    match users.find? (fun u => decide (u.user_id = s.user_id)) with
    | some u => ⟨s, some u.user_id, false⟩
    | none => ⟨s, none, true⟩

/-! ## Extractor: paginated API source with retry (spec 4.1) -/

/-- Modelled from the spec: a provider's response to one page fetch —
success carrying the page's records and whether further pages exist, a
transient failure (5xx, timeout), or a non-transient failure (4xx). -/
inductive PageResp (α : Type) where
  | success (records : List α) (hasNext : Bool)
  | transient
  | fatal
deriving DecidableEq, Repr

/-- Terminal errors of an API extraction. -/
inductive ExtractErr where
  | fatalAbort
  | retriesExhausted
  | pageLimit
deriving DecidableEq, Repr

/-- Exponential backoff delay before re-attempting after the given attempt
number (spec 4.1: retried with exponential backoff). -/
def backoffDelay (base attempt : ℕ) : ℕ :=
  base * 2 ^ attempt

/-- Modelled from the spec: retry one page fetch, starting at the given
attempt number with the given remaining attempts; transient failures are
retried after an exponential backoff delay, a non-transient failure aborts
fatally (spec 4.1, API source). Returns the outcome and the backoff delays
waited. -/
def retryPageGo (fetch : ℕ → ℕ → PageResp α) (base page : ℕ) :
    ℕ → ℕ → Except ExtractErr (List α × Bool) × List ℕ
  | _, 0 => (Except.error ExtractErr.retriesExhausted, [])
  | attempt, fuel + 1 =>
    match fetch page attempt with
    | PageResp.success rs hn => (Except.ok (rs, hn), [])
    | PageResp.fatal => (Except.error ExtractErr.fatalAbort, [])
    | PageResp.transient =>
      let rest := retryPageGo fetch base page (attempt + 1) fuel
      (rest.1, backoffDelay base attempt :: rest.2)

/-- Fetch one page, retrying up to `maxAttempts` attempts. -/
def retryPage (fetch : ℕ → ℕ → PageResp α) (base page maxAttempts : ℕ) :
    Except ExtractErr (List α × Bool) × List ℕ :=
  retryPageGo fetch base page 0 maxAttempts

/-- Modelled from the spec: paginate from the given page until the
provider signals no further pages, concatenating the records of every
page; any page error aborts the source extraction (spec 4.1). `fuel`
bounds the number of pages visited. -/
def extractFrom (fetch : ℕ → ℕ → PageResp α) (base maxAttempts : ℕ) :
    ℕ → ℕ → Except ExtractErr (List α)
  | _, 0 => Except.error ExtractErr.pageLimit
  | page, fuel + 1 =>
    match (retryPage fetch base page maxAttempts).1 with
    | Except.error err => Except.error err
    | Except.ok (rs, hasNext) =>
      if hasNext then
        match extractFrom fetch base maxAttempts (page + 1) fuel with
        | Except.error err => Except.error err
        | Except.ok more => Except.ok (rs ++ more)
      else Except.ok rs

/-- The spec's scenario provider (spec 8): 3 pages, where the second page
times out on its first two attempts and succeeds on the third, and every
other fetch answers fatally. -/
def scenarioFetch : ℕ → ℕ → PageResp ℕ
  | 0, 0 => PageResp.success [10, 11] true
  | 1, 0 => PageResp.transient
  | 1, 1 => PageResp.transient
  | 1, 2 => PageResp.success [20, 21] true
  | 2, 0 => PageResp.success [30, 31] false
  | _, _ => PageResp.fatal

/-! ## Extractor: landing area writes (spec 4.1) -/

/-- Modelled from the spec: the landing area, one object slot per
(source, logical_date) pair. -/
abbrev Landing : Type := String × String → Option (List ℕ)

/-- Modelled from the spec: write one immutable object for the given
source and logical_date to the landing area, overwriting any previous
object for the same pair (spec 4.1, Side effect). -/
def writeObject (src d : String) (bytes : List ℕ) (area : Landing) : Landing :=
  fun p => if p = (src, d) then some bytes else area p

/-- Modelled from the spec: one Extractor run for a source and
logical_date — extraction is a deterministic function of the source and
the logical_date, and its batch is written to the landing area
(spec 4.1). -/
def runExtractor (extract : String → String → List ℕ) (src d : String)
    (area : Landing) : Landing :=
  writeObject src d (extract src d) area

/-! ## Terraform: Glue transformation jobs (src/terraform/main.tf) -/

/-- The `default_arguments` map of `aws_glue_job.json_transformation_job`
in `src/terraform/main.tf`, as a function of the Terraform variables it
interpolates. -/
def json_transformation_job_default_arguments
    (catalog_database data_lake_bucket users_table sessions_table : String) :
    List (String × String) :=
  [("--enable-job-insights", "true"),
   ("--job-language", "python"),
   ("--catalog_database", catalog_database),
   ("--ingest_date", "2025-06-01"),
   ("--users_source_path",
     "s3://" ++ data_lake_bucket ++ "/landing_zone/api/users/"),
   ("--sessions_source_path",
     "s3://" ++ data_lake_bucket ++ "/landing_zone/api/sessions/"),
   ("--target_bucket_path", data_lake_bucket),
   ("--users_table", users_table),
   ("--sessions_table", sessions_table),
   ("--datalake-formats", "iceberg"),
   ("--enable-glue-datacatalog", "true")]

/-- The `default_arguments` map of `aws_glue_job.songs_transformation_job`
in `src/terraform/main.tf`, as a function of the Terraform variables it
interpolates. -/
def songs_transformation_job_default_arguments
    (catalog_database data_lake_bucket songs_table : String) :
    List (String × String) :=
  [("--enable-job-insights", "true"),
   ("--job-language", "python"),
   ("--catalog_database", catalog_database),
   ("--ingest_date", "2025-06-01"),
   ("--source_bucket_path", data_lake_bucket),
   ("--target_bucket_path", data_lake_bucket),
   ("--songs_table", songs_table),
   ("--datalake-formats", "iceberg"),
   ("--enable-glue-datacatalog", "true")]

/-! ## Terraform: module dependency graph (src/terraform/main.tf) -/

/-- The three pipeline-stage modules declared in `src/terraform/main.tf`. -/
inductive TfModule where
  | extract_job
  | transform_job
  | serving
deriving DecidableEq, Repr, Fintype

/-- The explicit `depends_on` list of each module in
`src/terraform/main.tf`: `transform_job` depends on `extract_job` and
`serving` depends on `transform_job`. -/
def moduleDeps : TfModule → List TfModule
  | TfModule.extract_job => []
  | TfModule.transform_job => [TfModule.extract_job]
  | TfModule.serving => [TfModule.transform_job]

/-- Reachability along `depends_on` edges within `fuel` steps. With
`fuel = 3` (= number of modules) this is the full transitive closure of
the provisioning dependency graph. -/
def reaches : ℕ → TfModule → TfModule → Bool
  | 0, _, _ => false
  | fuel + 1, a, b =>
    (moduleDeps a).contains b || (moduleDeps a).any (fun c => reaches fuel c b)

/-- Provisioning rank of each stage: extract before transform before
serve. -/
def moduleRank : TfModule → ℕ
  | TfModule.extract_job => 0
  | TfModule.transform_job => 1
  | TfModule.serving => 2

/-! ## Concrete fixtures used by witnesses -/

/-- A coercion fixture: the record "bad" fails type coercion with reason
"type mismatch", every other record coerces. -/
def coerceFix : String → Except String ℕ :=
  fun s => if s = "bad" then Except.error "type mismatch" else Except.ok 0

/-- A raw-batch fixture containing one malformed record. -/
def batchFix : List String :=
  ["ok1", "bad", "ok2"]

/-- A partition fixture with an injected duplicate primary key. -/
def rowsFix : List (Row ℕ String) :=
  [⟨1, 0, "a"⟩, ⟨1, 5, "b"⟩, ⟨2, 1, "c"⟩]

/-- A users fixture with a single user. -/
def usersFix : List (User ℕ) :=
  [⟨1, "alice"⟩]

/-- A sessions fixture containing one orphan session whose user identifier
matches no user. -/
def sessionsFix : List (Session ℕ) :=
  [⟨"s-orphan", 42, 1⟩]

/-! ## Theorems -/

/-- Claim C1: for every rule set, the Quality Gate aggregate outcome is
PASS iff every rule's observed ratio meets its threshold, FAIL iff some
rule's observed ratio is below its threshold, and a ratio exactly at the
threshold counts as meeting it. -/
theorem quality_gate_aggregate (rs : List RuleResult) (s : String) (q : ℚ) :
    (aggregateOutcome rs = Outcome.PASS ↔ ∀ r ∈ rs, r.threshold ≤ r.observed) ∧
    (aggregateOutcome rs = Outcome.FAIL ↔ ∃ r ∈ rs, r.observed < r.threshold) ∧
    rulePasses ⟨s, q, q⟩ = true := by
  have hall : (rs.all rulePasses = true) ↔ ∀ r ∈ rs, r.threshold ≤ r.observed := by
    simp [List.all_eq_true, rulePasses]
  by_cases h : rs.all rulePasses = true
  · have hp : aggregateOutcome rs = Outcome.PASS := by
      unfold aggregateOutcome
      rw [if_pos h]
    refine ⟨⟨fun _ => hall.mp h, fun _ => hp⟩, ⟨?_, ?_⟩, by simp [rulePasses]⟩
    · intro hfail
      rw [hp] at hfail
      exact absurd hfail (by decide)
    · rintro ⟨r, hr, hlt⟩
      exact absurd (hall.mp h r hr) (not_le.mpr hlt)
  · have hq : aggregateOutcome rs = Outcome.FAIL := by
      unfold aggregateOutcome
      rw [if_neg h]
    have hex : ∃ r ∈ rs, r.observed < r.threshold := by
      have hn : ¬ ∀ r ∈ rs, r.threshold ≤ r.observed := fun hf => h (hall.mpr hf)
      push_neg at hn
      exact hn
    refine ⟨⟨?_, fun hf => absurd (hall.mpr hf) h⟩,
      ⟨fun _ => hex, fun _ => hq⟩, by simp [rulePasses]⟩
    intro hpass
    rw [hq] at hpass
    exact absurd hpass (by decide)

/-- Claim C3: a Transformer write for logical_date D changes only
partition D and leaves every other partition unchanged, and writes for
distinct logical_dates commute, so concurrent runs for distinct dates
never modify each other's partitions. -/
theorem partition_write_isolation {α : Type} (d1 d2 x : String)
    (r1 r2 : List α) (t : Table α) (hx : x ≠ d1) (hd : d1 ≠ d2) :
    writePartition d1 r1 t x = t x ∧
    writePartition d1 r1 (writePartition d2 r2 t) =
      writePartition d2 r2 (writePartition d1 r1 t) := by
  constructor
  · simp [writePartition, hx]
  · funext y
    by_cases h1 : y = d1
    · subst h1
      simp [writePartition, hd]
    · by_cases h2 : y = d2 <;> simp [writePartition, h1, h2, Ne.symm hd]

/-- Witness for C3 at concrete dates and a concrete table. -/
theorem partition_write_isolation_witness :
    ("2025-06-03" : String) ≠ "2025-06-01" ∧
    ("2025-06-01" : String) ≠ "2025-06-02" ∧
    (writePartition "2025-06-01" [1] (fun _ => (none : Option (List ℕ))) "2025-06-03" =
        (fun _ => (none : Option (List ℕ))) "2025-06-03" ∧
      writePartition "2025-06-01" [1]
          (writePartition "2025-06-02" [2] (fun _ => (none : Option (List ℕ)))) =
        writePartition "2025-06-02" [2]
          (writePartition "2025-06-01" [1] (fun _ => (none : Option (List ℕ))))) :=
  ⟨by decide, by decide,
    partition_write_isolation "2025-06-01" "2025-06-02" "2025-06-03" [1] [2]
      (fun _ => none) (by decide) (by decide)⟩

/-- Claim C8: extraction is a deterministic function of source and
logical_date, so re-running the Extractor for the same logical_date is
idempotent — the second run overwrites the first with the byte-identical
object. -/
theorem extractor_idempotent (extract : String → String → List ℕ)
    (src d : String) (area : Landing) :
    runExtractor extract src d (runExtractor extract src d area) =
      runExtractor extract src d area ∧
    runExtractor extract src d area (src, d) = some (extract src d) := by
  constructor
  · funext p
    by_cases hp : p = (src, d) <;> simp [runExtractor, writeObject, hp]
  · simp [runExtractor, writeObject]

/-- Claim C9: both Glue transformation job definitions set the default
argument "--ingest_date" to the constant "2025-06-01", whatever the
Terraform variables are. -/
theorem ingest_date_is_fixed_constant
    (catalog_database data_lake_bucket users_table sessions_table songs_table : String) :
    (json_transformation_job_default_arguments catalog_database data_lake_bucket
        users_table sessions_table).lookup "--ingest_date" = some "2025-06-01" ∧
    (songs_transformation_job_default_arguments catalog_database data_lake_bucket
        songs_table).lookup "--ingest_date" = some "2025-06-01" := by
  constructor <;> rfl

/-- Claim C10: the Terraform `depends_on` graph over the three stage
modules is acyclic and totally orders extract before transform before
serve: reachability never loops, every dependency lowers the stage rank,
and serving transitively depends on extraction. -/
theorem terraform_stage_order :
    (∀ m : TfModule, reaches 3 m m = false) ∧
    (∀ a b : TfModule, reaches 3 a b = false ∨ moduleRank b < moduleRank a) ∧
    reaches 3 TfModule.serving TfModule.extract_job = true ∧
    moduleDeps TfModule.transform_job = [TfModule.extract_job] ∧
    moduleDeps TfModule.serving = [TfModule.transform_job] := by
  decide

/-- A transition emits a Modeler invocation only when its driving event
carries a PASS verdict. -/
theorem invokeModeler_needs_pass (d : String) (s : OrchState) (e : Event)
    (h : Action.invokeModeler d ∈ (step d s e).2) : isPass e = true := by
  obtain ⟨ph, cur⟩ := s
  cases ph <;> cases e <;>
    first
      | (rename_i b; cases b <;> simp_all [step, isPass])
      | simp_all [step, isPass]

/-- Once the curated data is recorded, no transition un-records it. -/
theorem step_preserves_curated (d : String) (s : OrchState) (e : Event)
    (h : s.curatedRecorded = true) : ((step d s e).1).curatedRecorded = true := by
  obtain ⟨ph, cur⟩ := s
  cases ph <;> cases e <;>
    first
      | (rename_i b; cases b <;> simp_all [step])
      | simp_all [step]

/-- Along any trace, every Modeler invocation for the run's logical_date
is emitted by a step whose event carries a PASS verdict. -/
theorem traceFrom_modeler_needs_pass (d : String) (s : OrchState) (es : List Event)
    (e : Event) (as : List Action)
    (hmem : (e, as) ∈ traceFrom d s es) (hinv : Action.invokeModeler d ∈ as) :
    isPass e = true := by
  induction es generalizing s with
  | nil => cases hmem
  | cons e0 es ih =>
    rw [traceFrom] at hmem
    rcases List.mem_cons.mp hmem with heq | htail
    · have he : e = e0 := congrArg Prod.fst heq
      have ha : as = (step d s e0).2 := congrArg Prod.snd heq
      subst he
      subst ha
      exact invokeModeler_needs_pass d s e hinv
    · exact ih (step d s e0).1 htail

/-- Claim C2: a FAIL verdict moves QUALITY_CHECK to BLOCKED with the
curated-data record intact, and from BLOCKED no Modeler invocation for the
run's logical_date is ever emitted until an event carrying a PASS verdict
for that same run triggers it. -/
theorem blocked_halts_modeler_until_pass (d : String) (c : Bool) (es : List Event)
    (e : Event) (as : List Action)
    (hmem : (e, as) ∈
      traceFrom d (step d ⟨Phase.QUALITY_CHECK, c⟩ (Event.verdict false)).1 es)
    (hinv : Action.invokeModeler d ∈ as) :
    (step d ⟨Phase.QUALITY_CHECK, c⟩ (Event.verdict false)).1 = ⟨Phase.BLOCKED, c⟩ ∧
    isPass e = true :=
  ⟨rfl, traceFrom_modeler_needs_pass d _ es e as hmem hinv⟩

/-- Witness for C2 on the concrete run of logical_date "2025-06-01" whose
re-evaluation passes. -/
theorem blocked_halts_modeler_until_pass_witness :
    (Event.reEvaluate true,
        [Action.persistVerdict "2025-06-01" true, Action.invokeModeler "2025-06-01"]) ∈
      traceFrom "2025-06-01"
        (step "2025-06-01" ⟨Phase.QUALITY_CHECK, true⟩ (Event.verdict false)).1
        [Event.reEvaluate true] ∧
    ((step "2025-06-01" ⟨Phase.QUALITY_CHECK, true⟩ (Event.verdict false)).1 =
        ⟨Phase.BLOCKED, true⟩ ∧
      isPass (Event.reEvaluate true) = true) :=
  ⟨by decide,
    blocked_halts_modeler_until_pass "2025-06-01" true [Event.reEvaluate true]
      (Event.reEvaluate true)
      [Action.persistVerdict "2025-06-01" true, Action.invokeModeler "2025-06-01"]
      (by decide) (by decide)⟩

/-- Every record of the batch that fails type coercion lands in the
rejected-records sink paired with its error reason. -/
theorem mem_splitRecords_sink (coerce : α → Except String β) (batch : List α)
    (r : α) (msg : String) (hr : r ∈ batch) (he : coerce r = Except.error msg) :
    (r, msg) ∈ (splitRecords coerce batch).2 := by
  induction batch with
  | nil => cases hr
  | cons a rs ih =>
    rcases List.mem_cons.mp hr with hra | hmem
    · subst hra
      simp [splitRecords, he]
    · cases hc : coerce a <;> simp [splitRecords, hc, ih hmem]

/-- Claim C4: each malformed record is routed to the rejected-records sink
with its error reason; the partition write is aborted exactly when the
rejection rate exceeds the configured ceiling, and on abort the table — in
particular the target partition — is left unchanged. -/
theorem transformer_reject_routing {α β : Type} (coerce : α → Except String β)
    (ceiling : ℚ) (d : String) (batch : List α) (t : Table β)
    (r : α) (msg : String) (hr : r ∈ batch) (he : coerce r = Except.error msg) :
    (r, msg) ∈ (transformWrite coerce ceiling d batch t).sink ∧
    ((transformWrite coerce ceiling d batch t).aborted = true ↔
      ceiling < rejectionRate batch.length (splitRecords coerce batch).2.length) ∧
    ((transformWrite coerce ceiling d batch t).aborted = true →
      (transformWrite coerce ceiling d batch t).table = t) := by
  unfold transformWrite
  by_cases h : ceiling < rejectionRate batch.length (splitRecords coerce batch).2.length <;>
    simp [h] <;>
    exact mem_splitRecords_sink coerce batch r msg hr he

/-- Witness for C4 on a concrete batch with one malformed record. -/
theorem transformer_reject_routing_witness :
    "bad" ∈ batchFix ∧
    coerceFix "bad" = Except.error "type mismatch" ∧
    (("bad", "type mismatch") ∈
        (transformWrite coerceFix (1 / 2) "2025-06-01" batchFix (fun _ => none)).sink ∧
      ((transformWrite coerceFix (1 / 2) "2025-06-01" batchFix (fun _ => none)).aborted = true ↔
        (1 / 2 : ℚ) <
          rejectionRate batchFix.length (splitRecords coerceFix batchFix).2.length) ∧
      ((transformWrite coerceFix (1 / 2) "2025-06-01" batchFix (fun _ => none)).aborted = true →
        (transformWrite coerceFix (1 / 2) "2025-06-01" batchFix (fun _ => none)).table =
          fun _ => none)) :=
  ⟨by decide, rfl,
    transformer_reject_routing coerceFix (1 / 2) "2025-06-01" batchFix (fun _ => none)
      "bad" "type mismatch" (by decide) rfl⟩

/-- Claim C5: a non-transient (4xx) response aborts the source extraction
with a fatal error on its first attempt; and in the spec's scenario —
3 pages where the second page times out twice then succeeds on the third
attempt — the extraction yields all records of all 3 pages with no fatal
abort, having waited exponentially growing backoff delays. -/
theorem api_extraction_retry {α : Type} (fetch : ℕ → ℕ → PageResp α)
    (base page n : ℕ) (h : fetch page 0 = PageResp.fatal) :
    (retryPage fetch base page (n + 1)).1 = Except.error ExtractErr.fatalAbort ∧
    extractFrom scenarioFetch 1 3 0 3 = Except.ok [10, 11, 20, 21, 30, 31] ∧
    (retryPage scenarioFetch 1 1 3).2 = [backoffDelay 1 0, backoffDelay 1 1] := by
  refine ⟨?_, rfl, rfl⟩
  simp [retryPage, retryPageGo, h]

/-- Witness for C5 with a provider that always answers 4xx. -/
theorem api_extraction_retry_witness :
    (fun _ _ => (PageResp.fatal : PageResp ℕ)) 0 0 = PageResp.fatal ∧
    ((retryPage (fun _ _ => (PageResp.fatal : PageResp ℕ)) 1 0 3).1 =
        Except.error ExtractErr.fatalAbort ∧
      extractFrom scenarioFetch 1 3 0 3 = Except.ok [10, 11, 20, 21, 30, 31] ∧
      (retryPage scenarioFetch 1 1 3).2 = [backoffDelay 1 0, backoffDelay 1 1]) :=
  ⟨rfl, api_extraction_retry (fun _ _ => PageResp.fatal) 1 0 2 rfl⟩

/-- Collapsing two rows of equal primary key keeps that primary key. -/
theorem laterOf_key_eq {K V : Type} (x r : Row K V) (h : x.key = r.key) :
    (laterOf x r).key = x.key := by
  unfold laterOf
  split
  · exact h.symm
  · rfl

/-- The primary keys present after inserting a row are that row's key
together with the keys already present. -/
theorem mem_keys_insertRow {K V : Type} [DecidableEq K] (r : Row K V)
    (acc : List (Row K V)) (k : K) :
    k ∈ (insertRow r acc).map Row.key ↔ k = r.key ∨ k ∈ acc.map Row.key := by
  induction acc with
  | nil => simp [insertRow]
  | cons x xs ih =>
    by_cases hx : x.key = r.key
    · simp [insertRow, hx, laterOf_key_eq x r hx]
      try tauto
    · simp [insertRow, hx, ih]
      try tauto

/-- Inserting a row preserves distinctness of the primary keys. -/
theorem nodup_keys_insertRow {K V : Type} [DecidableEq K] (r : Row K V)
    (acc : List (Row K V)) (h : (acc.map Row.key).Nodup) :
    ((insertRow r acc).map Row.key).Nodup := by
  induction acc with
  | nil => simp [insertRow]
  | cons x xs ih =>
    rw [List.map_cons, List.nodup_cons] at h
    by_cases hx : x.key = r.key
    · rw [insertRow]
      rw [if_pos hx]
      rw [List.map_cons, List.nodup_cons, laterOf_key_eq x r hx]
      exact ⟨h.1, h.2⟩
    · rw [insertRow]
      rw [if_neg hx]
      rw [List.map_cons, List.nodup_cons]
      refine ⟨?_, ih h.2⟩
      rw [mem_keys_insertRow]
      rintro (heq | hmem)
      · exact hx heq
      · exact h.1 hmem

/-- Folding insertions over a batch preserves distinctness of the
accumulated primary keys. -/
theorem nodup_keys_foldl_insertRow {K V : Type} [DecidableEq K]
    (rows : List (Row K V)) (acc : List (Row K V)) (h : (acc.map Row.key).Nodup) :
    ((rows.foldl (fun a r => insertRow r a) acc).map Row.key).Nodup := by
  induction rows generalizing acc with
  | nil => exact h
  | cons r rs ih => exact ih (insertRow r acc) (nodup_keys_insertRow r acc h)

/-- Inserting a row never shrinks the accumulator. -/
theorem length_le_insertRow {K V : Type} [DecidableEq K] (r : Row K V)
    (acc : List (Row K V)) : acc.length ≤ (insertRow r acc).length := by
  induction acc with
  | nil => simp [insertRow]
  | cons x xs ih =>
    by_cases hx : x.key = r.key
    · simp [insertRow, hx]
    · simp only [insertRow, if_neg hx, List.length_cons]
      exact Nat.succ_le_succ ih

/-- Folding insertions never shrinks the accumulator. -/
theorem length_le_foldl_insertRow {K V : Type} [DecidableEq K]
    (rows : List (Row K V)) (acc : List (Row K V)) :
    acc.length ≤ (rows.foldl (fun a r => insertRow r a) acc).length := by
  induction rows generalizing acc with
  | nil => exact le_refl _
  | cons r rs ih =>
    exact le_trans (length_le_insertRow r acc) (ih (insertRow r acc))

/-- Deduplicating a nonempty partition yields a nonempty partition. -/
theorem deduplicate_ne_nil {K V : Type} [DecidableEq K]
    (rows : List (Row K V)) (h : rows ≠ []) : deduplicate rows ≠ [] := by
  match rows, h with
  | r :: rs, _ =>
    have hlen : 1 ≤ (deduplicate (r :: rs)).length := by
      have : (insertRow r []).length ≤ (rs.foldl (fun a x => insertRow x a) (insertRow r [])).length :=
        length_le_foldl_insertRow rs (insertRow r [])
      simpa [deduplicate, insertRow] using this
    intro hnil
    rw [hnil] at hlen
    simp at hlen

/-- Claim C6: after deduplication the primary keys of a curated partition
are pairwise distinct, so the primary-key uniqueness ratio of any nonempty
partition is at least 0.95. -/
theorem dedup_uniqueness {K V : Type} [DecidableEq K]
    (rows : List (Row K V)) (h : rows ≠ []) :
    ((deduplicate rows).map Row.key).Nodup ∧
    (95 : ℚ) / 100 ≤ uniquenessOf (deduplicate rows) := by
  have hnodup : ((deduplicate rows).map Row.key).Nodup :=
    nodup_keys_foldl_insertRow rows [] (by simp)
  have hne : deduplicate rows ≠ [] := deduplicate_ne_nil rows h
  have hlen : (deduplicate rows).length ≠ 0 :=
    fun h0 => hne (List.length_eq_zero.mp h0)
  refine ⟨hnodup, ?_⟩
  unfold uniquenessOf
  rw [List.dedup_eq_self.mpr hnodup, List.length_map,
    div_self (by exact_mod_cast hlen)]
  norm_num

/-- Witness for C6 on a concrete partition with an injected duplicate
primary key. -/
theorem dedup_uniqueness_witness :
    rowsFix ≠ [] ∧
    (((deduplicate rowsFix).map Row.key).Nodup ∧
      (95 : ℚ) / 100 ≤ uniquenessOf (deduplicate rowsFix)) :=
  ⟨by decide, dedup_uniqueness rowsFix (by decide)⟩

/-- Claim C7: the enrichment join drops no session row, and every Session
row with no matching User row is retained in the output with a null
foreign key and the unmatched flag set. -/
theorem enrich_keeps_orphans {K : Type} [DecidableEq K]
    (users : List (User K)) (sessions : List (Session K)) (s : Session K)
    (hs : s ∈ sessions) (hno : ∀ u ∈ users, ¬ u.user_id = s.user_id) :
    (enrich users sessions).length = sessions.length ∧
    (⟨s, none, true⟩ : EnrichedSession K) ∈ enrich users sessions := by
  constructor
  · simp [enrich]
  · have hfind : users.find? (fun u => decide (u.user_id = s.user_id)) = none := by
      rw [List.find?_eq_none]
      intro u hu
      simp [hno u hu]
    refine List.mem_map.mpr ⟨s, hs, ?_⟩
    simp [hfind]

/-- Witness for C7 on a crafted orphan session record. -/
theorem enrich_keeps_orphans_witness :
    (⟨"s-orphan", 42, 1⟩ : Session ℕ) ∈ sessionsFix ∧
    ((enrich usersFix sessionsFix).length = sessionsFix.length ∧
      (⟨⟨"s-orphan", 42, 1⟩, none, true⟩ : EnrichedSession ℕ) ∈ enrich usersFix sessionsFix) :=
  ⟨by decide,
    enrich_keeps_orphans usersFix sessionsFix ⟨"s-orphan", 42, 1⟩ (by decide) (by decide)⟩

end Deftunes
